import Mathlib

/-!
Verification of the `@purinton/mcp-server` HTTP front end (`src/index.mjs`).

The development shallowly embeds the parts of `index.mjs` that the spec's
claims are about:

* the bearer-token extraction and authentication middleware
  (`index.mjs` lines 143-171),
* the JSON-parse error handler producing 406 (lines 74-80),
* the response body-capture middleware (lines 104-141),
* the tool-registry loading loop (lines 41-62),
* `convertBigIntToString` and `buildResponse` (lines 206-238).

JavaScript values that matter to the claims (strings, numbers, BigInts,
arrays, objects, null, undefined) are embedded as the mutual inductive
`JVal`.  Machine-level concerns (event loop, sockets) are out of scope;
each middleware is modelled as a pure function on an explicit request /
response state, which is exactly how the spec describes them.
-/

namespace McpServer

/-! ## HTTP request model and bearer-token extraction

Node's HTTP parser lower-cases incoming header names before they appear on
`req.headers`; `nodeHeaders` models that normalisation, and `headerGet`
models property lookup on the resulting object (first entry wins).
-/

/-- An inbound HTTP request as seen by the express middleware chain.
`headers` carries the raw client header names (any capitalisation);
`bodyValidJson` records whether `express.json()` could parse the body
(`false` models the `SyntaxError` path of `index.mjs` lines 75-80). -/
structure Request where
  method : String
  url : String
  headers : List (String × String)
  bodyValidJson : Bool
deriving DecidableEq, Repr

/-- JS `s.startsWith(pre)`, character by character. -/
def strStarts (s pre : String) : Bool :=
  s.data.take pre.data.length == pre.data

/-- JS `f.endsWith(suf)`, character by character. -/
def strEnds (s suf : String) : Bool :=
  s.data.reverse.take suf.data.length == suf.data.reverse

/-- ASCII lower-casing of a header name, character by character. -/
def strLower (s : String) : String :=
  String.mk (s.data.map Char.toLower)

/-- JS `s.trim()`: strip leading and trailing whitespace. -/
def jsTrim (s : String) : String :=
  String.mk
    (((s.data.dropWhile Char.isWhitespace).reverse.dropWhile
      Char.isWhitespace).reverse)

/-- Node lower-cases header names when populating `req.headers`. -/
def nodeHeaders (raw : List (String × String)) : List (String × String) :=
  raw.map (fun p => (strLower p.1, p.2))

/-- Property lookup on the `req.headers` object. -/
def headerGet (hs : List (String × String)) (name : String) : Option String :=
  (hs.find? (fun p => p.1 == name)).map (fun p => p.2)

/-- Embeds `req.headers['authorization'] || req.headers['Authorization']`
(`index.mjs` line 145), applied to the Node-normalised header map. -/
def getAuthHeader (raw : List (String × String)) : Option String :=
  match headerGet (nodeHeaders raw) "authorization" with
  | some v => some v
  | none => headerGet (nodeHeaders raw) "Authorization"

/-- Embeds `authHeader && authHeader.startsWith('Bearer ') ?
authHeader.slice('Bearer '.length).trim() : undefined`
(`index.mjs` lines 146-148). -/
def extractBearer (raw : List (String × String)) : Option String :=
  match getAuthHeader raw with
  | some h => if strStarts h "Bearer " then some (jsTrim (h.drop 7)) else none
  | none => none

/-- Embeds `authHeader && authHeader.startsWith('Bearer ')`, the guard of
`index.mjs` line 162 (negated there). -/
def headerHasBearerScheme : Option String → Bool
  | some h => strStarts h "Bearer "
  | none => false

/-! ## Authentication middleware -/

/-- JavaScript string truthiness of the optional `authToken`
(`if (!authToken)`, `index.mjs` line 159): `undefined` and the empty
string are falsy. -/
def strTruthy : Option String → Bool
  | none => false
  | some s => !(s == "")

/-- Server auth configuration.  The callback receives the extracted token
(`undefined` modelled as `none`) and either returns a truthiness value
(`Except.ok`) or throws / rejects (`Except.error` carrying the diagnostic
string used for the `details` field). -/
structure ServerConfig where
  authToken : Option String
  authCallback : Option (Option String → Except String Bool)

/-- A JSON error response sent by the middleware layer:
status code, the `error` field, and the optional `details` field. -/
structure ErrResponse where
  status : Nat
  error : String
  details : Option String
deriving DecidableEq, Repr

/-- Result of one middleware: either respond and stop, or call `next()`. -/
inductive MWResult where
  | respond (r : ErrResponse)
  | next
deriving DecidableEq, Repr

/-- The auth middleware of `index.mjs` lines 143-171, translated
clause-for-clause. -/
def authMiddleware (cfg : ServerConfig) (req : Request) : MWResult :=
  if req.method = "POST" ∧ req.url = "/" then
    let authHeader := getAuthHeader req.headers
    let token := extractBearer req.headers
    match cfg.authCallback with
    | some cb =>
      match cb token with
      | Except.ok result =>
        if result = false then
          MWResult.respond ⟨401, "Invalid bearer token (authCallback)", none⟩
        else
          MWResult.next
      | Except.error e =>
        MWResult.respond ⟨500, "Auth callback error", some e⟩
    | none =>
      if strTruthy cfg.authToken = false then
        MWResult.respond ⟨500, "MCP_TOKEN not set in environment", none⟩
      else if headerHasBearerScheme authHeader = false then
        MWResult.respond ⟨401, "Missing or invalid Authorization header", none⟩
      else if token ≠ cfg.authToken then
        MWResult.respond ⟨401, "Invalid bearer token", none⟩
      else
        MWResult.next
  else
    MWResult.next

/-- Outcome of the `POST /` pipeline: either a terminal error response
produced by the parse or auth layer, or the request reaches
`transport.handleRequest` (the dispatcher). -/
inductive Outcome where
  | response (r : ErrResponse)
  | dispatched
deriving DecidableEq, Repr

/-- The `POST /` pipeline of `index.mjs`: `express.json()` parse failure is
caught by the error handler of lines 75-80 and answered with 406 before any
later middleware runs; otherwise the auth middleware decides, and on
`next()` the request reaches the dispatcher (`app.post('/')`, line 177). -/
def handlePost (cfg : ServerConfig) (req : Request) : Outcome :=
  if req.bodyValidJson = false then
    Outcome.response ⟨406, "Invalid JSON", none⟩
  else
    match authMiddleware cfg req with
    | MWResult.respond r => Outcome.response r
    | MWResult.next => Outcome.dispatched

/-! ## Response body-capture middleware (`index.mjs` lines 104-141)

The middleware monkey-patches `res.send`, `res.write` and `res.end`.
Each patched primitive pushes the payload onto a per-request `chunks`
array and then delegates to the saved original.  The original primitives
are modelled at their interface, as the spec prescribes: each appends its
payload bytes to the wire.  JS truthiness of `if (body)` / `if (chunk)` is
modelled as non-emptiness of the byte sequence.  `res.send` restores
itself when invoked; `res.end` restores itself, computes the accumulated
body text and logs it; `res.write` is never restored in the source. -/

/-- A byte sequence (a Node `Buffer`'s contents). -/
abbrev ByteSeq := List Nat

/-- One call on the response object: `res.send(b)`, `res.write(b, ...)` or
`res.end(b?, ...)` (the terminal call's chunk argument is optional). -/
inductive RespEvent where
  | send (b : ByteSeq)
  | write (b : ByteSeq)
  | endw (b : Option ByteSeq)
deriving DecidableEq, Repr

/-- The state of a wrapped response object: bytes already delivered to the
client, the captured `chunks` array, which of the three primitives still
point at the wrapper, and the body text logged at the terminal call. -/
structure RespState where
  wire : ByteSeq
  chunks : List ByteSeq
  sendPatched : Bool
  writePatched : Bool
  endPatched : Bool
  loggedBody : Option ByteSeq
deriving DecidableEq, Repr

/-- State just after the middleware installed its wrappers
(`chunks = []`, all three primitives patched, nothing sent). -/
def initResp : RespState :=
  { wire := [], chunks := [], sendPatched := true, writePatched := true,
    endPatched := true, loggedBody := none }

/-- One call on the response object, following `index.mjs` lines 113-138.
When a primitive has been restored, the call goes straight to the
original (append to the wire) with no capture. -/
def stepEvent (r : RespState) : RespEvent → RespState
  | RespEvent.send b =>
    if r.sendPatched then
      { r with chunks := if b.isEmpty then r.chunks else r.chunks ++ [b],
               sendPatched := false,
               wire := r.wire ++ b }
    else
      { r with wire := r.wire ++ b }
  | RespEvent.write b =>
    if r.writePatched then
      { r with chunks := if b.isEmpty then r.chunks else r.chunks ++ [b],
               wire := r.wire ++ b }
    else
      { r with wire := r.wire ++ b }
  | RespEvent.endw b =>
    let chunk := b.getD []
    if r.endPatched then
      let chunks := if chunk.isEmpty then r.chunks else r.chunks ++ [chunk]
      { r with chunks := chunks,
               loggedBody := some chunks.flatten,
               endPatched := false,
               wire := r.wire ++ chunk }
    else
      { r with wire := r.wire ++ chunk }

/-- Run a sequence of response calls against a freshly wrapped response. -/
def runEvents (es : List RespEvent) : RespState :=
  es.foldl stepEvent initResp

/-- Payload bytes of one response call. -/
def payloadBytes : RespEvent → ByteSeq
  | RespEvent.send b => b
  | RespEvent.write b => b
  | RespEvent.endw b => b.getD []

/-- Bytes a client receives with capture disabled: the plain concatenation,
in call order, of the payloads handed to the original primitives. -/
def plainWire (es : List RespEvent) : ByteSeq :=
  (es.map payloadBytes).flatten

/-- Number of `send` calls in a sequence. -/
def countSends : List RespEvent → Nat
  | [] => 0
  | RespEvent.send _ :: es => countSends es + 1
  | _ :: es => countSends es

/-- Holds (`true`) when the sequence contains no terminal `end` call. -/
def noEnd : List RespEvent → Bool
  | [] => true
  | RespEvent.endw _ :: _ => false
  | _ :: es => noEnd es

/-! ## JavaScript values and `convertBigIntToString` (`index.mjs` 206-221)

`JVal` embeds the JS values relevant to the claims.  Arrays and objects
are given their own list-shaped inductives so that the mutual recursion of
`convertBigIntToString` (`value.map(convertBigIntToString)` and the
own-property loop) is plain structural recursion. -/

mutual
/-- A JavaScript value. `num` models ordinary numbers at integer precision
(the claims only pass integral numbers through them); `bigint` is a
`BigInt`; `obj` carries the own enumerable properties in order. -/
inductive JVal where
  | bigint (n : Int)
  | num (n : Int)
  | str (s : String)
  | jbool (b : Bool)
  | jnull
  | undef
  | arr (xs : JArr)
  | obj (fs : JObj)
deriving DecidableEq, Repr

/-- A JS array of values. -/
inductive JArr where
  | nil
  | cons (hd : JVal) (tl : JArr)
deriving DecidableEq, Repr

/-- The own enumerable properties of a JS object, in insertion order. -/
inductive JObj where
  | nil
  | cons (k : String) (v : JVal) (tl : JObj)
deriving DecidableEq, Repr
end

mutual
/-- Embeds `convertBigIntToString` (`index.mjs` lines 206-221): `typeof value ===
'bigint'` becomes a decimal string (`value.toString()`); arrays map the
function over elements; non-null objects rebuild with converted own
properties; everything else (including `null`, which is object-typed but
falsy) is returned unchanged. -/
def convertBigIntToString : JVal → JVal
  | JVal.bigint n => JVal.str (toString n)
  | JVal.arr xs => JVal.arr (convertArr xs)
  | JVal.obj fs => JVal.obj (convertObj fs)
  | v => v

/-- Embeds `value.map(convertBigIntToString)` on an array. -/
def convertArr : JArr → JArr
  | JArr.nil => JArr.nil
  | JArr.cons x xs => JArr.cons (convertBigIntToString x) (convertArr xs)

/-- The `for (const key in value)` / `hasOwnProperty` loop on an object. -/
def convertObj : JObj → JObj
  | JObj.nil => JObj.nil
  | JObj.cons k v fs => JObj.cons k (convertBigIntToString v) (convertObj fs)
end

mutual
/-- Holds (`true`) when the value contains no `BigInt` anywhere. -/
def noBigInt : JVal → Bool
  | JVal.bigint _ => false
  | JVal.arr xs => noBigIntArr xs
  | JVal.obj fs => noBigIntObj fs
  | _ => true

/-- Extends `noBigInt` over an array's elements. -/
def noBigIntArr : JArr → Bool
  | JArr.nil => true
  | JArr.cons x xs => noBigInt x && noBigIntArr xs

/-- Extends `noBigInt` over an object's property values. -/
def noBigIntObj : JObj → Bool
  | JObj.nil => true
  | JObj.cons _ v fs => noBigInt v && noBigIntObj fs
end

/-! ## `buildResponse` (`index.mjs` 228-238)

`buildResponse` serialises the converted data with
`JSON.stringify(safeData, null, 2)`.  The serialiser is modelled at JSON
semantics: a `BigInt` reached during serialisation throws a `TypeError`
(`Except.error`); `undefined` serialises to nothing at top level
(`Option.none`), to `null` inside arrays, and its property is skipped
inside objects.  The indentation argument only affects whitespace, which
the model renders in compact form. -/

/-- JSON string quoting (escapes quote, backslash and common controls). -/
def jsonQuote (s : String) : String :=
  let esc := fun (c : Char) =>
    if c = '"' then "\\\""
    else if c = '\\' then "\\\\"
    else if c = '\n' then "\\n"
    else if c = '\r' then "\\r"
    else if c = '\t' then "\\t"
    else String.singleton c
  "\"" ++ String.join (s.toList.map esc) ++ "\""

mutual
/-- Embeds `JSON.stringify`: `Except.error ()` models the `TypeError` thrown on a
`BigInt`; `Except.ok none` models serialising `undefined`. -/
def stringifyJson : JVal → Except Unit (Option String)
  | JVal.bigint _ => Except.error ()
  | JVal.undef => Except.ok none
  | JVal.jnull => Except.ok (some "null")
  | JVal.jbool b => Except.ok (some (if b then "true" else "false"))
  | JVal.num n => Except.ok (some (toString n))
  | JVal.str s => Except.ok (some (jsonQuote s))
  | JVal.arr xs => do
    let items ← stringifyArr xs
    Except.ok (some ("[" ++ String.intercalate "," items ++ "]"))
  | JVal.obj fs => do
    let items ← stringifyObj fs
    Except.ok (some ("\x7b" ++ String.intercalate "," items ++ "\x7d"))

/-- Array elements: `undefined` renders as `null`. -/
def stringifyArr : JArr → Except Unit (List String)
  | JArr.nil => Except.ok []
  | JArr.cons x xs => do
    let sx ← stringifyJson x
    let rest ← stringifyArr xs
    Except.ok ((sx.getD "null") :: rest)

/-- Object properties: a property whose value serialises to `undefined`
is omitted. -/
def stringifyObj : JObj → Except Unit (List String)
  | JObj.nil => Except.ok []
  | JObj.cons k v fs => do
    let sv ← stringifyJson v
    let rest ← stringifyObj fs
    match sv with
    | some s => Except.ok ((jsonQuote k ++ ":" ++ s) :: rest)
    | none => Except.ok rest
end

/-- One item of the tool response's `content` array. -/
structure ContentItem where
  type : String
  text : Option String
deriving DecidableEq, Repr

/-- Embeds `buildResponse` (`index.mjs` lines 228-238): convert BigInts, then wrap
the serialised text in the standard payload.  A `TypeError` from
`JSON.stringify` would propagate out of the function (`Except.error`). -/
def buildResponse (data : JVal) : Except Unit (List ContentItem) := do
  let safeData := convertBigIntToString data
  let text ← stringifyJson safeData
  Except.ok [⟨"text", text⟩]

/-! ## Tool-registry loading (`index.mjs` lines 41-62) -/

/-- What happens when one plugin file is imported and registered.  `ok`:
the import succeeds, the default export is a function and its registration
call returns; `importFails` / `registerFails`: the corresponding step
throws (caught by the per-file `catch`); `noDefaultFn`: the import
succeeds but there is no default export function. -/
inductive PluginBehavior where
  | ok
  | importFails
  | registerFails
  | noDefaultFn
deriving DecidableEq, Repr

/-- A directory entry of the tools directory. -/
structure PluginFile where
  name : String
  behavior : PluginBehavior
deriving DecidableEq, Repr

/-- Embeds `file.replace(/\.mjs$/, '')` (`index.mjs` line 46). -/
def toolNameOf (f : String) : String :=
  if strEnds f ".mjs" then f.dropRight 4 else f

/-- Loader state: registered tool names (in registration order), the
`toolCount` counter, and the error / warning log lines. -/
structure LoadState where
  tools : List String
  toolCount : Nat
  errors : List String
  warns : List String
deriving DecidableEq, Repr

/-- The body of the `for (const file of toolFiles)` loop (`index.mjs`
lines 44-58): a successful registration appends the tool and bumps the
count; a missing default export logs a warning; a throw during import or
registration is caught and logged, and the loop continues. -/
def processPlugin (st : LoadState) (p : PluginFile) : LoadState :=
  match p.behavior with
  | PluginBehavior.ok =>
    { st with tools := st.tools ++ [toolNameOf p.name],
              toolCount := st.toolCount + 1 }
  | PluginBehavior.noDefaultFn =>
    { st with warns := st.warns ++ ["No default export function in " ++ p.name] }
  | _ =>
    { st with errors := st.errors ++ ["Error registering MCP tool from " ++ p.name] }

/-- Embeds `readdirSync(toolsDir).filter(f => f.endsWith('.mjs'))` followed by the
registration loop (`index.mjs` lines 42-58). -/
def loadTools (files : List PluginFile) : LoadState :=
  (files.filter (fun f => strEnds f.name ".mjs")).foldl processPlugin
    ⟨[], 0, [], []⟩

/-! ## Helper lemmas about `convertBigIntToString` -/

mutual
theorem convert_noBigInt : ∀ v : JVal, noBigInt (convertBigIntToString v) = true
  | JVal.bigint _ => rfl
  | JVal.num _ => rfl
  | JVal.str _ => rfl
  | JVal.jbool _ => rfl
  | JVal.jnull => rfl
  | JVal.undef => rfl
  | JVal.arr xs => by
    simpa [convertBigIntToString, noBigInt] using convertArr_noBigInt xs
  | JVal.obj fs => by
    simpa [convertBigIntToString, noBigInt] using convertObj_noBigInt fs

theorem convertArr_noBigInt : ∀ xs : JArr, noBigIntArr (convertArr xs) = true
  | JArr.nil => rfl
  | JArr.cons x xs => by
    simp [convertArr, noBigIntArr, convert_noBigInt x, convertArr_noBigInt xs]

theorem convertObj_noBigInt : ∀ fs : JObj, noBigIntObj (convertObj fs) = true
  | JObj.nil => rfl
  | JObj.cons _ v fs => by
    simp [convertObj, noBigIntObj, convert_noBigInt v, convertObj_noBigInt fs]
end

mutual
theorem convert_id_of_noBigInt :
    ∀ v : JVal, noBigInt v = true → convertBigIntToString v = v
  | JVal.bigint _ => by intro h; simp [noBigInt] at h
  | JVal.num _ => fun _ => rfl
  | JVal.str _ => fun _ => rfl
  | JVal.jbool _ => fun _ => rfl
  | JVal.jnull => fun _ => rfl
  | JVal.undef => fun _ => rfl
  | JVal.arr xs => by
    intro h
    simp only [noBigInt] at h
    simp [convertBigIntToString, convertArr_id_of_noBigInt xs h]
  | JVal.obj fs => by
    intro h
    simp only [noBigInt] at h
    simp [convertBigIntToString, convertObj_id_of_noBigInt fs h]

theorem convertArr_id_of_noBigInt :
    ∀ xs : JArr, noBigIntArr xs = true → convertArr xs = xs
  | JArr.nil => fun _ => rfl
  | JArr.cons x xs => by
    intro h
    simp only [noBigIntArr, Bool.and_eq_true] at h
    simp [convertArr, convert_id_of_noBigInt x h.1, convertArr_id_of_noBigInt xs h.2]

theorem convertObj_id_of_noBigInt :
    ∀ fs : JObj, noBigIntObj fs = true → convertObj fs = fs
  | JObj.nil => fun _ => rfl
  | JObj.cons k v fs => by
    intro h
    simp only [noBigIntObj, Bool.and_eq_true] at h
    simp [convertObj, convert_id_of_noBigInt v h.1, convertObj_id_of_noBigInt fs h.2]
end

mutual
theorem stringify_ok_of_noBigInt :
    ∀ v : JVal, noBigInt v = true → ∃ o, stringifyJson v = Except.ok o
  | JVal.bigint _ => by intro h; simp [noBigInt] at h
  | JVal.num n => fun _ => ⟨_, rfl⟩
  | JVal.str s => fun _ => ⟨_, rfl⟩
  | JVal.jbool b => fun _ => ⟨_, rfl⟩
  | JVal.jnull => fun _ => ⟨_, rfl⟩
  | JVal.undef => fun _ => ⟨_, rfl⟩
  | JVal.arr xs => by
    intro h
    simp only [noBigInt] at h
    obtain ⟨l, hl⟩ := stringifyArr_ok_of_noBigInt xs h
    refine ⟨some ("[" ++ String.intercalate "," l ++ "]"), ?_⟩
    simp only [stringifyJson, hl]
    rfl
  | JVal.obj fs => by
    intro h
    simp only [noBigInt] at h
    obtain ⟨l, hl⟩ := stringifyObj_ok_of_noBigInt fs h
    refine ⟨some ("\x7b" ++ String.intercalate "," l ++ "\x7d"), ?_⟩
    simp only [stringifyJson, hl]
    rfl

theorem stringifyArr_ok_of_noBigInt :
    ∀ xs : JArr, noBigIntArr xs = true → ∃ l, stringifyArr xs = Except.ok l
  | JArr.nil => fun _ => ⟨_, rfl⟩
  | JArr.cons x xs => by
    intro h
    simp only [noBigIntArr, Bool.and_eq_true] at h
    obtain ⟨o, ho⟩ := stringify_ok_of_noBigInt x h.1
    obtain ⟨l, hl⟩ := stringifyArr_ok_of_noBigInt xs h.2
    refine ⟨o.getD "null" :: l, ?_⟩
    simp only [stringifyArr, ho, hl]
    rfl

theorem stringifyObj_ok_of_noBigInt :
    ∀ fs : JObj, noBigIntObj fs = true → ∃ l, stringifyObj fs = Except.ok l
  | JObj.nil => fun _ => ⟨_, rfl⟩
  | JObj.cons k v fs => by
    intro h
    simp only [noBigIntObj, Bool.and_eq_true] at h
    obtain ⟨o, ho⟩ := stringify_ok_of_noBigInt v h.1
    obtain ⟨l, hl⟩ := stringifyObj_ok_of_noBigInt fs h.2
    cases o with
    | none =>
      refine ⟨l, ?_⟩
      simp only [stringifyObj, ho, hl]
      rfl
    | some s =>
      refine ⟨(jsonQuote k ++ ":" ++ s) :: l, ?_⟩
      simp only [stringifyObj, ho, hl]
      rfl
end

/-- The spec's worked example `{a: 1n, b: [2n, 3, {c: 4n}]}`. -/
def exampleData : JVal :=
  JVal.obj (JObj.cons "a" (JVal.bigint 1)
    (JObj.cons "b"
      (JVal.arr (JArr.cons (JVal.bigint 2)
        (JArr.cons (JVal.num 3)
          (JArr.cons (JVal.obj (JObj.cons "c" (JVal.bigint 4) JObj.nil))
            JArr.nil))))
      JObj.nil))

/-- The spec's expected image `{"a": "1", "b": ["2", 3, {"c": "4"}]}`. -/
def exampleExpected : JVal :=
  JVal.obj (JObj.cons "a" (JVal.str "1")
    (JObj.cons "b"
      (JVal.arr (JArr.cons (JVal.str "2")
        (JArr.cons (JVal.num 3)
          (JArr.cons (JVal.obj (JObj.cons "c" (JVal.str "4") JObj.nil))
            JArr.nil))))
      JObj.nil))

/-! ## Helper lemmas about the tool-loading loop -/

/-- Tool names contributed by the successfully registered plugins, in order. -/
def okTools : List PluginFile → List String
  | [] => []
  | p :: ps =>
    match p.behavior with
    | PluginBehavior.ok => toolNameOf p.name :: okTools ps
    | _ => okTools ps

/-- Number of successfully registered plugins. -/
def okCount : List PluginFile → Nat
  | [] => 0
  | p :: ps =>
    match p.behavior with
    | PluginBehavior.ok => okCount ps + 1
    | _ => okCount ps

/-- Error-log lines produced by plugins whose import or registration threw. -/
def errLines : List PluginFile → List String
  | [] => []
  | p :: ps =>
    match p.behavior with
    | PluginBehavior.importFails =>
      ("Error registering MCP tool from " ++ p.name) :: errLines ps
    | PluginBehavior.registerFails =>
      ("Error registering MCP tool from " ++ p.name) :: errLines ps
    | _ => errLines ps

theorem foldl_processPlugin_spec (l : List PluginFile) (st : LoadState) :
    (l.foldl processPlugin st).tools = st.tools ++ okTools l ∧
    (l.foldl processPlugin st).toolCount = st.toolCount + okCount l ∧
    (l.foldl processPlugin st).errors = st.errors ++ errLines l := by
  induction l generalizing st with
  | nil => simp [okTools, okCount, errLines]
  | cons p ps ih =>
    simp only [List.foldl_cons]
    obtain ⟨h1, h2, h3⟩ := ih (processPlugin st p)
    rw [h1, h2, h3]
    cases hb : p.behavior <;>
      simp [processPlugin, hb, okTools, okCount, errLines] <;>
      omega

theorem okTools_append (l1 l2 : List PluginFile) :
    okTools (l1 ++ l2) = okTools l1 ++ okTools l2 := by
  induction l1 with
  | nil => simp [okTools]
  | cons p ps ih => cases hb : p.behavior <;> simp [okTools, hb, ih]

theorem okCount_append (l1 l2 : List PluginFile) :
    okCount (l1 ++ l2) = okCount l1 + okCount l2 := by
  induction l1 with
  | nil => simp [okCount]
  | cons p ps ih => cases hb : p.behavior <;> simp [okCount, hb, ih] <;> omega

theorem errLines_append (l1 l2 : List PluginFile) :
    errLines (l1 ++ l2) = errLines l1 ++ errLines l2 := by
  induction l1 with
  | nil => simp [errLines]
  | cons p ps ih => cases hb : p.behavior <;> simp [errLines, hb, ih]

/-! ## Helper lemmas about the body-capture state machine -/

theorem foldl_stepEvent_wire (es : List RespEvent) (r : RespState) :
    (es.foldl stepEvent r).wire = r.wire ++ plainWire es := by
  induction es generalizing r with
  | nil => simp [plainWire]
  | cons e es ih =>
    simp only [List.foldl_cons]
    rw [ih]
    cases e <;>
      simp [stepEvent, plainWire, payloadBytes, List.append_assoc] <;>
      split <;>
      simp [List.append_assoc]

theorem foldl_stepEvent_flags (ws : List RespEvent) (r : RespState)
    (hend : noEnd ws = true) :
    (ws.foldl stepEvent r).endPatched = r.endPatched ∧
    (ws.foldl stepEvent r).writePatched = r.writePatched ∧
    (ws.foldl stepEvent r).sendPatched = (r.sendPatched && (countSends ws == 0)) := by
  induction ws generalizing r with
  | nil => simp [countSends]
  | cons e es ih =>
    cases e with
    | send b =>
      simp only [List.foldl_cons]
      simp only [noEnd] at hend
      obtain ⟨h1, h2, h3⟩ := ih (stepEvent r (RespEvent.send b)) hend
      rw [h1, h2, h3]
      by_cases hsp : r.sendPatched = true
      · simp [stepEvent, hsp, countSends]
      · simp only [Bool.not_eq_true] at hsp
        simp [stepEvent, hsp, countSends]
    | write b =>
      simp only [List.foldl_cons]
      simp only [noEnd] at hend
      obtain ⟨h1, h2, h3⟩ := ih (stepEvent r (RespEvent.write b)) hend
      rw [h1, h2, h3]
      by_cases hwp : r.writePatched = true
      · simp [stepEvent, hwp, countSends]
      · simp only [Bool.not_eq_true] at hwp
        simp [stepEvent, hwp, countSends]
    | endw b => simp [noEnd] at hend

theorem stepEvent_write_sendPatched (r : RespState) (b : ByteSeq) :
    (stepEvent r (RespEvent.write b)).sendPatched = r.sendPatched := by
  simp only [stepEvent]
  split <;> rfl

theorem foldl_stepEvent_capture (ws : List RespEvent) (r : RespState)
    (hend : noEnd ws = true)
    (hep : r.endPatched = true) (hwp : r.writePatched = true)
    (hcap : r.chunks.flatten = r.wire)
    (hbudget : countSends ws ≤ if r.sendPatched then 1 else 0) :
    (ws.foldl stepEvent r).endPatched = true ∧
    (ws.foldl stepEvent r).writePatched = true ∧
    (ws.foldl stepEvent r).chunks.flatten = (ws.foldl stepEvent r).wire := by
  induction ws generalizing r with
  | nil => exact ⟨hep, hwp, hcap⟩
  | cons e es ih =>
    cases e with
    | send b =>
      simp only [List.foldl_cons]
      simp only [noEnd] at hend
      have hsp : r.sendPatched = true := by
        cases hs : r.sendPatched
        · rw [hs] at hbudget
          simp [countSends] at hbudget
        · rfl
      have hb1 : countSends es + 1 ≤ 1 := by
        rw [hsp] at hbudget
        simpa [countSends] using hbudget
      refine ih (stepEvent r (RespEvent.send b)) hend ?_ ?_ ?_ ?_
      · simp [stepEvent, hsp, hep]
      · simp [stepEvent, hsp, hwp]
      · cases hbe : b.isEmpty with
        | true => simp [stepEvent, hsp, hbe, hcap, List.isEmpty_iff.mp hbe]
        | false => simp [stepEvent, hsp, hbe, hcap]
      · have hnew : (stepEvent r (RespEvent.send b)).sendPatched = false := by
          simp [stepEvent, hsp]
        rw [hnew]
        simp only [if_neg Bool.false_ne_true]
        omega
    | write b =>
      simp only [List.foldl_cons]
      simp only [noEnd] at hend
      refine ih (stepEvent r (RespEvent.write b)) hend ?_ ?_ ?_ ?_
      · simp [stepEvent, hwp, hep]
      · simp [stepEvent, hwp]
      · cases hbe : b.isEmpty with
        | true => simp [stepEvent, hwp, hbe, hcap, List.isEmpty_iff.mp hbe]
        | false => simp [stepEvent, hwp, hbe, hcap]
      · rw [stepEvent_write_sendPatched]
        simpa [countSends] using hbudget
    | endw b => simp [noEnd] at hend

/-! ## Claim theorems -/

/-- C1: on `POST /` with an async auth callback configured, the callback is
invoked with the extracted bearer token and takes precedence over any static
token: a falsy result yields 401 with error `Invalid bearer token
(authCallback)`; a throw/rejection yields 500 with error `Auth callback
error` and a `details` field (never a 401); a truthy result lets the request
proceed to dispatch; and the outcome never depends on the static token. -/
theorem authCallback_governs_post
    (cb : Option String → Except String Bool) (tok : Option String)
    (req : Request) (hm : req.method = "POST") (hu : req.url = "/")
    (hb : req.bodyValidJson = true) :
    (∀ e, cb (extractBearer req.headers) = Except.error e →
      handlePost ⟨tok, some cb⟩ req =
        Outcome.response ⟨500, "Auth callback error", some e⟩) ∧
    (cb (extractBearer req.headers) = Except.ok false →
      handlePost ⟨tok, some cb⟩ req =
        Outcome.response ⟨401, "Invalid bearer token (authCallback)", none⟩) ∧
    (∀ b, cb (extractBearer req.headers) = Except.ok b → b ≠ false →
      handlePost ⟨tok, some cb⟩ req = Outcome.dispatched) ∧
    (∀ tok2, handlePost ⟨tok2, some cb⟩ req = handlePost ⟨tok, some cb⟩ req) := by
  refine ⟨?_, ?_, ?_, ?_⟩
  · intro e he
    simp [handlePost, hb, authMiddleware, hm, hu, he]
  · intro he
    simp [handlePost, hb, authMiddleware, hm, hu, he]
  · intro b hbv hbt
    have hbtrue : b = true := by
      cases b
      · exact absurd rfl hbt
      · rfl
    subst hbtrue
    simp [handlePost, hb, authMiddleware, hm, hu, hbv]
  · intro tok2
    cases hc : cb (extractBearer req.headers) with
    | ok v => cases v <;> simp [handlePost, hb, authMiddleware, hm, hu, hc]
    | error e => simp [handlePost, hb, authMiddleware, hm, hu, hc]

/-- C1 witness: a concrete callback that accepts exactly the token `good`
lets a request carrying `Bearer good` reach dispatch, a static token
notwithstanding. -/
theorem authCallback_governs_post_witness :
    handlePost ⟨some "static-token", some (fun t => Except.ok (t == some "good"))⟩
        ⟨"POST", "/", [("Authorization", "Bearer good")], true⟩ =
      Outcome.dispatched :=
  (authCallback_governs_post (fun t => Except.ok (t == some "good"))
      (some "static-token")
      ⟨"POST", "/", [("Authorization", "Bearer good")], true⟩ rfl rfl rfl).2.2.1
    true rfl (by decide)

/-- C2: on `POST /` with a static token configured and no callback: a
missing header or a wrong scheme yields 401 `Missing or invalid
Authorization header`; a mismatching extracted token yields 401 `Invalid
bearer token`; an exactly matching token (on a well-formed JSON body) lets
the request reach the dispatcher. -/
theorem static_token_auth_decision (t : String) (ht : t ≠ "")
    (req : Request) (hm : req.method = "POST") (hu : req.url = "/")
    (hb : req.bodyValidJson = true) :
    (headerHasBearerScheme (getAuthHeader req.headers) = false →
      handlePost ⟨some t, none⟩ req =
        Outcome.response ⟨401, "Missing or invalid Authorization header", none⟩) ∧
    (headerHasBearerScheme (getAuthHeader req.headers) = true →
      extractBearer req.headers ≠ some t →
      handlePost ⟨some t, none⟩ req =
        Outcome.response ⟨401, "Invalid bearer token", none⟩) ∧
    (extractBearer req.headers = some t →
      handlePost ⟨some t, none⟩ req = Outcome.dispatched) := by
  have htr : strTruthy (some t) = true := by simp [strTruthy, ht]
  refine ⟨?_, ?_, ?_⟩
  · intro hs
    simp [handlePost, hb, authMiddleware, hm, hu, htr, hs]
  · intro hs hne
    simp [handlePost, hb, authMiddleware, hm, hu, htr, hs, hne]
  · intro hex
    have hs : headerHasBearerScheme (getAuthHeader req.headers) = true := by
      unfold extractBearer at hex
      unfold headerHasBearerScheme
      cases hh : getAuthHeader req.headers with
      | none => rw [hh] at hex; simp at hex
      | some h =>
        rw [hh] at hex
        by_cases hsw : strStarts h "Bearer " = true
        · exact hsw
        · simp [hsw] at hex
    simp [handlePost, hb, authMiddleware, hm, hu, htr, hs, hex]

/-- C2 witness: with static token `secret`, a request carrying
`Bearer secret` and a well-formed body reaches the dispatcher. -/
theorem static_token_auth_decision_witness :
    handlePost ⟨some "secret", none⟩
        ⟨"POST", "/", [("authorization", "Bearer secret")], true⟩ =
      Outcome.dispatched :=
  (static_token_auth_decision "secret" (by decide)
      ⟨"POST", "/", [("authorization", "Bearer secret")], true⟩ rfl rfl rfl).2.2
    (by decide)

/-- C3: a `POST /` body that is not well-formed JSON is answered 406
`Invalid JSON`, for every auth configuration and every header set — in
place of any 401 or 500. -/
theorem invalid_json_yields_406 (cfg : ServerConfig) (req : Request)
    (hm : req.method = "POST") (hu : req.url = "/")
    (hb : req.bodyValidJson = false) :
    handlePost cfg req = Outcome.response ⟨406, "Invalid JSON", none⟩ := by
  simp [handlePost, hb]

/-- C3 witness: a malformed body is answered 406 even though auth is
misconfigured (no token and no callback) and a header is present. -/
theorem invalid_json_yields_406_witness :
    handlePost ⟨none, none⟩
        ⟨"POST", "/", [("authorization", "Bearer secret")], false⟩ =
      Outcome.response ⟨406, "Invalid JSON", none⟩ :=
  invalid_json_yields_406 ⟨none, none⟩
    ⟨"POST", "/", [("authorization", "Bearer secret")], false⟩ rfl rfl rfl

/-- C4: on `POST /` with neither a (truthy) static token nor a callback
configured, the response is 500 `MCP_TOKEN not set in environment`,
whatever the Authorization header holds. -/
theorem unconfigured_auth_yields_500 (cfg : ServerConfig) (req : Request)
    (hm : req.method = "POST") (hu : req.url = "/")
    (hb : req.bodyValidJson = true)
    (hcb : cfg.authCallback = none) (ht : strTruthy cfg.authToken = false) :
    handlePost cfg req =
      Outcome.response ⟨500, "MCP_TOKEN not set in environment", none⟩ := by
  simp [handlePost, hb, authMiddleware, hm, hu, hcb, ht]

/-- C4 witness: with no token and no callback, a request that even carries
a bearer header is answered 500. -/
theorem unconfigured_auth_yields_500_witness :
    handlePost ⟨none, none⟩
        ⟨"POST", "/", [("authorization", "Bearer anything")], true⟩ =
      Outcome.response ⟨500, "MCP_TOKEN not set in environment", none⟩ :=
  unconfigured_auth_yields_500 ⟨none, none⟩
    ⟨"POST", "/", [("authorization", "Bearer anything")], true⟩ rfl rfl rfl rfl rfl

/-- C5 counterexample: for the header value `Bearer ` (token empty after
trimming) the code yields the present empty string, not absent — refuting
the claim's clause that an empty token after trimming is absent. -/
theorem extractBearer_empty_token_present :
    extractBearer [("authorization", "Bearer ")] = some "" ∧
    extractBearer [("authorization", "Bearer ")] ≠ none := by
  have h : extractBearer [("authorization", "Bearer ")] = some "" := rfl
  refine ⟨h, ?_⟩
  rw [h]
  exact fun hc => Option.noConfusion hc

/-- C5 (amended): bearer extraction accepts the header name
case-insensitively, recognizes only the case-sensitive `Bearer ` prefix and
returns the trimmed value after it — possibly the empty string — and is
absent exactly for a missing header or a wrong scheme. -/
theorem extractBearer_amended (nm v : String)
    (hn : strLower nm = "authorization") :
    extractBearer [(nm, v)] =
      (if strStarts v "Bearer " then some (jsTrim (v.drop 7)) else none) ∧
    extractBearer [] = none := by
  constructor
  · simp [extractBearer, getAuthHeader, nodeHeaders, headerGet, hn]
  · rfl

/-- C5 witness: the upper-cased header name is accepted and the token is
trimmed. -/
theorem extractBearer_amended_witness :
    strLower "AUTHORIZATION" = "authorization" ∧
    extractBearer [("AUTHORIZATION", "Bearer  tok ")] = some "tok" := by
  refine ⟨rfl, ?_⟩
  have h := (extractBearer_amended "AUTHORIZATION" "Bearer  tok " rfl).1
  rw [h]
  rfl

/-- C6: the capture wrapper is transparent on wire bytes — for any call
sequence the client receives exactly the concatenation, in call order, of
the payloads, identical to what the unwrapped primitives would deliver —
and for a response lifecycle (calls without a premature `end` and at most
one `send`, closed by the terminal `end`) the logged captured bytes are
byte-identical to the bytes sent to the client. -/
theorem capture_transparent_and_faithful :
    (∀ es : List RespEvent, (runEvents es).wire = plainWire es) ∧
    (∀ (ws : List RespEvent) (b : Option ByteSeq),
      noEnd ws = true → countSends ws ≤ 1 →
      (runEvents (ws ++ [RespEvent.endw b])).loggedBody =
        some ((runEvents (ws ++ [RespEvent.endw b])).wire)) := by
  constructor
  · intro es
    have h := foldl_stepEvent_wire es initResp
    simpa [runEvents, initResp] using h
  · intro ws b hend hs
    obtain ⟨hep, hwp, hcap⟩ := foldl_stepEvent_capture ws initResp hend
      rfl rfl rfl (by simpa [initResp] using hs)
    unfold runEvents
    rw [List.foldl_append]
    simp only [List.foldl_cons, List.foldl_nil]
    simp only [stepEvent, hep, if_true]
    cases hbe : (b.getD []).isEmpty with
    | true => simp [hbe, hcap, List.isEmpty_iff.mp hbe]
    | false => simp [hbe, hcap]

/-- C6 witness: a send, a streaming write and a terminal end with chunk;
the logged body equals the wire bytes. -/
theorem capture_transparent_and_faithful_witness :
    noEnd [RespEvent.send [1], RespEvent.write [2, 3]] = true ∧
    countSends [RespEvent.send [1], RespEvent.write [2, 3]] ≤ 1 ∧
    (runEvents ([RespEvent.send [1], RespEvent.write [2, 3]] ++
        [RespEvent.endw (some [4])])).loggedBody =
      some ((runEvents ([RespEvent.send [1], RespEvent.write [2, 3]] ++
        [RespEvent.endw (some [4])])).wire) :=
  ⟨by decide, by decide,
    capture_transparent_and_faithful.2 [RespEvent.send [1], RespEvent.write [2, 3]]
      (some [4]) (by decide) (by decide)⟩

/-- C7 counterexample: after the lifecycle `write` then terminal `end`, the
`write` and `send` wrappers are still installed — it is false that all
three intercepted primitives are restored when the terminal call
completes. -/
theorem restoration_after_end_refuted :
    ¬ ((runEvents [RespEvent.write [1], RespEvent.endw none]).sendPatched = false ∧
       (runEvents [RespEvent.write [1], RespEvent.endw none]).writePatched = false ∧
       (runEvents [RespEvent.write [1], RespEvent.endw none]).endPatched = false) := by
  decide

/-- C7 (amended): when the terminal `end` call completes, the `end`
primitive is restored; `send` has been restored exactly if it was invoked
during the lifecycle; the `write` primitive is never restored. -/
theorem end_restores_only_end (ws : List RespEvent) (b : Option ByteSeq)
    (hend : noEnd ws = true) :
    (runEvents (ws ++ [RespEvent.endw b])).endPatched = false ∧
    (runEvents (ws ++ [RespEvent.endw b])).writePatched = true ∧
    ((runEvents (ws ++ [RespEvent.endw b])).sendPatched = true ↔
      countSends ws = 0) := by
  obtain ⟨h1, h2, h3⟩ := foldl_stepEvent_flags ws initResp hend
  unfold runEvents
  rw [List.foldl_append]
  simp only [List.foldl_cons, List.foldl_nil]
  have hep : (ws.foldl stepEvent initResp).endPatched = true := by
    rw [h1]; rfl
  refine ⟨?_, ?_, ?_⟩
  · simp [stepEvent, hep]
  · have hk : (stepEvent (ws.foldl stepEvent initResp) (RespEvent.endw b)).writePatched =
        (ws.foldl stepEvent initResp).writePatched := by
      simp only [stepEvent]
      split <;> rfl
    rw [hk, h2]
    rfl
  · have hk : (stepEvent (ws.foldl stepEvent initResp) (RespEvent.endw b)).sendPatched =
        (ws.foldl stepEvent initResp).sendPatched := by
      simp only [stepEvent]
      split <;> rfl
    rw [hk, h3]
    simp [initResp]

/-- C7 witness: after a write-only lifecycle, the end primitive is indeed
restored while write is not. -/
theorem end_restores_only_end_witness :
    noEnd [RespEvent.write [9]] = true ∧
    (runEvents ([RespEvent.write [9]] ++ [RespEvent.endw none])).endPatched = false ∧
    (runEvents ([RespEvent.write [9]] ++ [RespEvent.endw none])).writePatched = true :=
  ⟨by decide,
    (end_restores_only_end [RespEvent.write [9]] none (by decide)).1,
    (end_restores_only_end [RespEvent.write [9]] none (by decide)).2.1⟩

/-- C8: `convertBigIntToString` maps the spec's example to the expected
image, leaves no BigInt anywhere in any output, leaves BigInt-free values
unchanged, and consequently the serialised tool response built by
`buildResponse` never trips over a BigInt. -/
theorem convertBigIntToString_renders :
    convertBigIntToString exampleData = exampleExpected ∧
    (∀ v : JVal, noBigInt (convertBigIntToString v) = true) ∧
    (∀ v : JVal, noBigInt v = true → convertBigIntToString v = v) ∧
    (∀ data : JVal, ∃ items, buildResponse data = Except.ok items) := by
  refine ⟨rfl, convert_noBigInt, convert_id_of_noBigInt, ?_⟩
  intro data
  obtain ⟨o, ho⟩ := stringify_ok_of_noBigInt (convertBigIntToString data)
    (convert_noBigInt data)
  refine ⟨[⟨"text", o⟩], ?_⟩
  simp only [buildResponse, ho]
  rfl

/-- C8 witness: a BigInt-free leaf passes through unchanged. -/
theorem convertBigIntToString_renders_witness :
    noBigInt (JVal.num 3) = true ∧
    convertBigIntToString (JVal.num 3) = JVal.num 3 :=
  ⟨by decide, convertBigIntToString_renders.2.2.1 (JVal.num 3) (by decide)⟩

/-- C9: a plugin whose import or registration throws contributes nothing to
the registered tools or the count and never prevents the remaining plugins
from being registered; its failure is visible as an error-log line. -/
theorem plugin_failure_isolated (pre post : List PluginFile) (p : PluginFile)
    (hfail : p.behavior = PluginBehavior.importFails ∨
      p.behavior = PluginBehavior.registerFails) :
    (loadTools (pre ++ p :: post)).tools = (loadTools (pre ++ post)).tools ∧
    (loadTools (pre ++ p :: post)).toolCount = (loadTools (pre ++ post)).toolCount ∧
    (strEnds p.name ".mjs" = true →
      ("Error registering MCP tool from " ++ p.name) ∈
        (loadTools (pre ++ p :: post)).errors) := by
  have hokT : ∀ l, okTools (p :: l) = okTools l := by
    intro l; rcases hfail with h | h <;> simp [okTools, h]
  have hokC : ∀ l, okCount (p :: l) = okCount l := by
    intro l; rcases hfail with h | h <;> simp [okCount, h]
  have herr : ∀ l, errLines (p :: l) =
      ("Error registering MCP tool from " ++ p.name) :: errLines l := by
    intro l; rcases hfail with h | h <;> simp [errLines, h]
  obtain ⟨ha1, ha2, ha3⟩ := foldl_processPlugin_spec
    ((pre ++ p :: post).filter (fun f => strEnds f.name ".mjs")) ⟨[], 0, [], []⟩
  obtain ⟨hb1, hb2, hb3⟩ := foldl_processPlugin_spec
    ((pre ++ post).filter (fun f => strEnds f.name ".mjs")) ⟨[], 0, [], []⟩
  unfold loadTools
  rw [ha1, ha2, ha3, hb1, hb2]
  have e2 : (pre ++ post).filter (fun f => strEnds f.name ".mjs") =
      pre.filter (fun f => strEnds f.name ".mjs") ++
        post.filter (fun f => strEnds f.name ".mjs") := by
    simp [List.filter_append]
  by_cases hmjs : strEnds p.name ".mjs" = true
  · have e1 : (pre ++ p :: post).filter (fun f => strEnds f.name ".mjs") =
        pre.filter (fun f => strEnds f.name ".mjs") ++
          p :: post.filter (fun f => strEnds f.name ".mjs") := by
      simp [List.filter_append, List.filter_cons, hmjs]
    rw [e1, e2, okTools_append, okTools_append, okCount_append, okCount_append,
      errLines_append, hokT, hokC, herr]
    refine ⟨rfl, rfl, fun _ => ?_⟩
    simp
  · have e1 : (pre ++ p :: post).filter (fun f => strEnds f.name ".mjs") =
        pre.filter (fun f => strEnds f.name ".mjs") ++
          post.filter (fun f => strEnds f.name ".mjs") := by
      simp [List.filter_append, List.filter_cons, hmjs]
    rw [e1, e2]
    exact ⟨rfl, rfl, fun hc => absurd hc hmjs⟩

/-- C9 witness: a directory with one import-throwing plugin and one valid
plugin still registers the valid plugin, and the failure appears in the
error log. -/
theorem plugin_failure_isolated_witness :
    (loadTools [⟨"bad.mjs", PluginBehavior.importFails⟩,
        ⟨"good.mjs", PluginBehavior.ok⟩]).tools =
      (loadTools [⟨"good.mjs", PluginBehavior.ok⟩]).tools ∧
    (loadTools [⟨"good.mjs", PluginBehavior.ok⟩]).tools = ["good"] ∧
    ("Error registering MCP tool from " ++ "bad.mjs") ∈
      (loadTools [⟨"bad.mjs", PluginBehavior.importFails⟩,
        ⟨"good.mjs", PluginBehavior.ok⟩]).errors :=
  ⟨(plugin_failure_isolated [] [⟨"good.mjs", PluginBehavior.ok⟩]
      ⟨"bad.mjs", PluginBehavior.importFails⟩ (Or.inl rfl)).1,
    by decide,
    (plugin_failure_isolated [] [⟨"good.mjs", PluginBehavior.ok⟩]
      ⟨"bad.mjs", PluginBehavior.importFails⟩ (Or.inl rfl)).2.2 (by decide)⟩

/-- C10: `convertBigIntToString` is idempotent — a second application to
its own output changes nothing, since the output is BigInt-free. -/
theorem convertBigIntToString_idem (v : JVal) :
    convertBigIntToString (convertBigIntToString v) = convertBigIntToString v :=
  convert_id_of_noBigInt (convertBigIntToString v) (convert_noBigInt v)

end McpServer
